import Mathlib

/-!
Verification of the AI-Journal frontend against its specification.

The definitions below are a shallow embedding of the React frontend
(`frontend/src/components/*.js`, `frontend/src/utils/configCache.js`) and of
its two `HistoryView` variants.  Stateful component logic (React `useState` /
`useRef` plus the `useEffect` polling loop of `InsightCard`) is embedded as
explicit state passing: each handler or effect becomes a pure function from
the component state (and the observed server response) to the next state.
JavaScript strings are modelled by Lean `String` (code-point length stands in
for the UTF-16 unit count), JS number values by `Nat`/`ℚ`, `NaN` results by
`Option`, and a JS `map<string,bool>` by the list of keys mapped to `true`.

The backend (`get_daily_insight` / InsightCache) is not part of the source
tree; where a claim depends on it, a definition marked `Modelled from the
spec:` reproduces the state machine of spec §4.5.
-/

namespace AIJournal

/-- A daily-insight response as the `InsightCard` client consumes it: the
component reads exactly `response.data.source`, `.llm_processing`, `.verdict`,
`.evidence`, `.action` and `.confidence_estimate`. -/
structure InsightPayload where
  source : String
  verdict : String
  evidence : List String
  action : String
  confidence_estimate : ℚ
  llm_processing : Bool
deriving Repr, DecidableEq

/-- The field names `InsightCard` reads off a daily-insight response
(`InsightCard.js` poll callback and render). -/
def insightFieldsRead : List String :=
  ["source", "llm_processing", "verdict", "evidence", "action", "confidence_estimate"]

/-- Modelled from the spec: the field names of the `get_daily_insight`
response as §6 of the spec declares them (`{status, verdict, evidence[],
action?, confidence, llm_processing}`); the backend that would produce the
response is not under the source tree. -/
def insightFieldsSpec : List String :=
  ["status", "verdict", "evidence", "action", "confidence", "llm_processing"]

/-- State of the `InsightCard` component that the polling logic touches:
`insight` (the displayed payload), `isRefreshing`, and the mutable refs
`pollIntervalRef` (modelled by `pollActive`), `hasStartedPollingRef` and the
`isPolling` flag. -/
structure CardState where
  insight : Option InsightPayload
  isRefreshing : Bool
  hasStartedPolling : Bool
  pollActive : Bool
  isPolling : Bool
deriving Repr, DecidableEq

/-- Clearing of the polling refs (`clearInterval`, reset of
`hasStartedPollingRef` and `isPolling`), shared by every stop branch of
`InsightCard`. -/
def clearPollRefs (s : CardState) : CardState :=
  { s with pollActive := false, hasStartedPolling := false, isPolling := false }

/-- The polling `useEffect` of `InsightCard` (lines 20-153): decides whether
to start a poll interval.  Returns the next state and whether a new interval
was started (`setInterval` called).  The guard `shouldPoll` requires
`hasStartedPollingRef.current` to be `false`. -/
def pollEffect (s : CardState) : CardState × Bool :=
  match s.insight with
  | none => (clearPollRefs s, false)
  | some ins =>
    if ins.source = "llm" ∧ s.isRefreshing = false ∧ ins.llm_processing = false then
      (clearPollRefs s, false)
    else if (ins.source = "fallback" ∨ s.isRefreshing = true) ∧ ins.llm_processing = true
        ∧ s.hasStartedPolling = false then
      ({ s with hasStartedPolling := true, isPolling := true, pollActive := true }, true)
    else if ins.source = "fallback" ∧ ins.llm_processing = false then
      (clearPollRefs s, false)
    else (s, false)

/-- The `disabled` attribute of the refresh button
(`disabled={loading || isRefreshing || (insight?.llm_processing === true)}`). -/
def refreshDisabled (loading isRefreshing : Bool) (insight : Option InsightPayload) : Bool :=
  loading || isRefreshing ||
    (match insight with
     | some i => i.llm_processing
     | none => false)

/-- One observed outcome of a poll request: a response payload, or a failed
request (`catch` branch of the interval callback). -/
inductive PollOutcome where
  | ok (r : InsightPayload)
  | err
deriving Repr

/-- One execution of the interval callback of `InsightCard` (lines 64-118):
given the state and the observed outcome, produce the next state and whether
the callback stopped the interval.  Only an `llm` response updates
`insight` (a single `setInsight` call); a settled fallback stops polling but
leaves the displayed payload alone; anything else (still processing, or a
failed request) changes nothing. -/
def pollTick (s : CardState) (o : PollOutcome) : CardState × Bool :=
  match o with
  | .err => (s, false)
  | .ok r =>
    if r.source = "llm" then
      ({ s with insight := some r, pollActive := false, hasStartedPolling := false,
                isPolling := false, isRefreshing := false }, true)
    else if r.source = "fallback" ∧ r.llm_processing = false then
      (clearPollRefs s, true)
    else (s, false)

/-- `maxPolls` of `InsightCard` (line 62). -/
def maxPolls : Nat := 24

/-- The `setInterval` period of the poll loop in milliseconds (line 129). -/
def pollIntervalMs : Nat := 5000

/-- The whole polling loop of `InsightCard`: ticks run against the stream
`resp` of observed outcomes (`resp n` is the outcome of poll number `n`,
with `pollCount` incremented at the top of each callback).  Returns the final
state and the number of polls performed.  The loop stops when a tick stops
it or when `pollCount` reaches `maxPolls`; the fuel argument only makes the
recursion structural and is started at `maxPolls`, which the `pollCount`
check makes sufficient. -/
def runPollLoop (resp : Nat → PollOutcome) : Nat → Nat → CardState → CardState × Nat
  | 0, count, s => (s, count)
  | fuel + 1, count, s =>
    let t := pollTick s (resp (count + 1))
    if t.2 then (t.1, count + 1)
    else if maxPolls ≤ count + 1 then (clearPollRefs t.1, count + 1)
    else runPollLoop resp fuel (count + 1) t.1

/-- The `forceRefresh` branch of `loadInsight` (lines 181-201): given the
currently displayed insight and the response, produce the next displayed
insight and the next `isRefreshing` flag (set to `true` on entry of
`loadInsight(true)`). -/
def loadInsightForce (prev : Option InsightPayload) (resp : InsightPayload) :
    Option InsightPayload × Bool :=
  if resp.source = "llm" ∧ resp.llm_processing = false then
    (some resp, false)
  else if resp.llm_processing = true then
    (match prev with
     | some p => some { p with llm_processing := true }
     | none => some resp, true)
  else (some resp, false)

/-- Modelled from the spec: status of the backend `InsightCacheRecord`
(spec §3, §4.5); the backend is not under the source tree. -/
inductive CacheStatus where
  | absent
  | pending
  | ready
  | fallback
deriving Repr, DecidableEq

/-- Modelled from the spec: the per-day backend `InsightCacheRecord`
(spec §3); the backend is not under the source tree. -/
structure InsightCacheRecord where
  status : CacheStatus
  content : Option InsightPayload
deriving Repr

/-- Modelled from the spec: one call to the backend `get_daily_insight`
endpoint for the record's calendar day (spec §4.5), as a transition on the
cache record; the backend is not under the source tree.  Returns the next
record and whether an LLM generation was started: a first request of the day
(`absent`) starts one, a cache hit on `pending` only checks the outstanding
handle, and a settled `ready`/`fallback` record transitions back to `pending`
only on a forced refresh. -/
def getDailyInsightStep (force : Bool) (s : InsightCacheRecord) :
    InsightCacheRecord × Bool :=
  match s.status with
  | .absent => ({ s with status := .pending }, true)
  | .pending => (s, false)
  | .ready => if force then ({ s with status := .pending }, true) else (s, false)
  | .fallback => if force then ({ s with status := .pending }, true) else (s, false)

/-- A journal entry as the history views read it (fields the streak and
chart code touches); `habits` lists the habit names mapped to `true` in the
entry's habit map.  Both views filter by `timestamp` against the selected
window and sort most-recent first before the streak scans below run. -/
structure Entry where
  timestamp : String
  showed_up : Bool
  habits : List String
deriving Repr, DecidableEq

/-- Whether an entry has the given habit checked
(`entry.habits && entry.habits[habit]`). -/
def hasHabit (h : String) (e : Entry) : Bool := e.habits.contains h

/-- The `showedUpStreak` loop of the extended `HistoryView` (lines 78-99 of
the extended variant), over the window-filtered most-recent-first list.
`idx` is the iteration index: a non-showed-up entry resets `current` only
when `current > 0` and the entry is `sorted[0]` -- JS reference equality,
which over the distinct objects of the parsed entries array holds exactly at
index 0.  Returns `(current, longest)`. -/
def showedUpLoop : List Entry → Nat → Nat → Nat → Nat → Nat × Nat
  | [], _, current, longest, _ => (current, longest)
  | e :: rest, idx, current, longest, tempLongest =>
    if e.showed_up then
      showedUpLoop rest (idx + 1) (current + 1)
        (max longest (tempLongest + 1)) (tempLongest + 1)
    else
      showedUpLoop rest (idx + 1)
        (if 0 < current ∧ idx = 0 then 0 else current) longest 0

/-- `showedUpStreak` of the extended `HistoryView`: the loop started on the
sorted list with `current = longest = tempLongest = 0`. -/
def showedUpStreak (sorted : List Entry) : Nat × Nat :=
  showedUpLoop sorted 0 0 0 0

/-- The per-habit loop of `habitStreaks` in the extended `HistoryView`
(lines 111-127 of the extended variant): on a hit `current` increments (and
the dead `maxStreak` accumulator updates); on a miss `longest` absorbs the
finished run and `current` resets; after the scan `longest` absorbs the last
run.  Returns `(current, longest)`. -/
def habitExtLoop (h : String) : List Entry → Nat → Nat → Nat → Nat × Nat
  | [], current, longest, _ => (current, max longest current)
  | e :: rest, current, longest, maxStreak =>
    if hasHabit h e then
      habitExtLoop h rest (current + 1) longest (max maxStreak (current + 1))
    else
      habitExtLoop h rest 0 (max longest current) maxStreak

/-- `habitStreaks[habit]` of the extended `HistoryView`, on the sorted list. -/
def habitStreakExt (sorted : List Entry) (h : String) : Nat × Nat :=
  habitExtLoop h sorted 0 0 0

/-- `habitStreaks[habit]` of the simple `HistoryView` (lines 70-79 of
`HistoryView.js`): count entries from the most recent one and stop at the
first entry lacking the habit (`break`). -/
def habitStreakSimple (h : String) : List Entry → Nat
  | [] => 0
  | e :: rest => if hasHabit h e then habitStreakSimple h rest + 1 else 0

/-- JS `Number.prototype.toFixed(0)` on a nonnegative value: round to the
nearest integer, halves away from zero. -/
def jsToFixed0 (x : ℚ) : ℤ := ⌊x + 1 / 2⌋

/-- The numeric value `QueryInterface.js` renders before the percent sign:
`(answer.confidence_estimate * 100).toFixed(0)` (line 117). -/
def queryConfidenceShown (c : ℚ) : ℚ := (jsToFixed0 (c * 100) : ℚ)

/-- The numeric value `InsightCard.js` renders before the percent sign:
`insight.confidence_estimate` interpolated directly (line 303). -/
def insightConfidenceShown (c : ℚ) : ℚ := c

/-- JS whitespace for `trim` (the characters the entry-form inputs can
contain). -/
def isJsWhitespace (c : Char) : Bool :=
  c == ' ' || c == '\t' || c == '\n' || c == '\r'

/-- JS `String.prototype.trim`, over the character list of the string. -/
def jsTrim (s : String) : String :=
  ⟨((s.data.dropWhile isJsWhitespace).reverse.dropWhile isJsWhitespace).reverse⟩

/-- JS `parseInt` on a base-10 value string, over the character list: the
longest leading digit run is parsed; an empty run gives `NaN`, modelled as
`none`. -/
def jsParseInt (s : String) : Option Nat :=
  let ds := s.data.takeWhile fun c => decide ('0' ≤ c) && decide (c ≤ '9')
  if ds.isEmpty then none
  else some (ds.foldl (fun acc c => acc * 10 + (c.toNat - '0'.toNat)) 0)

/-- The value strings an HTML `<input type="range" min="1" max="10">` can
hold (integer steps from `min` to `max`), as on the energy slider of
`EntryForm.js` (lines 107-114). -/
def energySliderValues : List String :=
  ["1", "2", "3", "4", "5", "6", "7", "8", "9", "10"]

/-- The body `POST /entry/` receives from either entry form; `energy` is
`none` when `parseInt` produced `NaN`. -/
structure EntryPayload where
  emotion : String
  energy : Option Nat
  showed_up : Bool
  habits : List String
  goals : List String
  free_text : String
  long_reflection : String
deriving Repr, DecidableEq

/-- `handleSubmit` of `EntryForm.js` (lines 34-78) up to the `POST`: the
validation sequence either sets an error message and returns (no request),
or produces the payload that is posted.  `habits` lists the habit names
toggled on. -/
def entryFormSubmit (emotion energyStr : String) (showedUp : Bool)
    (habits goals : List String) (freeText longReflection : String) :
    Except String EntryPayload :=
  if emotion = "" then
    .error "Please select an emotion"
  else if 200 < freeText.length then
    .error "Free text must be 200 characters or less"
  else
    .ok { emotion := emotion
          energy := jsParseInt energyStr
          showed_up := showedUp
          habits := habits
          goals := goals
          free_text := freeText
          long_reflection := longReflection }

/-- `handleSubmit` of `QuickEntryModal.js` (lines 104-159) up to the `POST`:
validation, then the payload with the constant `energy: 5`, empty `goals`,
and trimmed text fields. -/
def quickEntrySubmit (emotion : String) (showedUp : Bool) (habits : List String)
    (freeText longReflection : String) : Except String EntryPayload :=
  if emotion = "" then
    .error "Please select an emotion"
  else if jsTrim freeText = "" then
    .error "Please enter a brief reflection"
  else if 200 < freeText.length then
    .error "Brief reflection must be 200 characters or less"
  else
    .ok { emotion := emotion
          energy := some 5
          showed_up := showedUp
          habits := habits
          goals := []
          free_text := jsTrim freeText
          long_reflection := jsTrim longReflection }

/-- The config record `configCache.js` stores and returns. -/
structure Config where
  emotions : List String
  habits : List String
  reflection_questions : List String
  goals : List String
deriving Repr, DecidableEq

/-- The default `getConfig` returns when everything fails (lines 60-65). -/
def emptyConfig : Config :=
  { emotions := [], habits := [], reflection_questions := [], goals := [] }

/-- The two sessionStorage slots `configCache.js` uses: the cached config
and its store timestamp. -/
structure StorageState where
  cachedConfig : Option Config
  cachedTimestamp : Option Nat
deriving Repr, DecidableEq

/-- `CACHE_DURATION` of `configCache.js` (5 minutes in milliseconds). -/
def CACHE_DURATION : Nat := 5 * 60 * 1000

/-- The fetch-and-store tail of `getConfig` (lines 38-65): `fetch` is the
result of the network request (`none` is a failed request).  On success the
config is stored with the current time; on failure the `catch` block falls
back to whatever `cachedConfig` is still stored, else the empty default. -/
def getConfigFetch (st : StorageState) (now : Nat) (fetch : Option Config) :
    Config × StorageState :=
  match fetch with
  | some cfg => (cfg, { cachedConfig := some cfg, cachedTimestamp := some now })
  | none =>
    match st.cachedConfig with
    | some cfg => (cfg, st)
    | none => (emptyConfig, st)

/-- `getConfig` of `configCache.js` (lines 17-67): a cache younger than
`CACHE_DURATION` is returned directly; an expired cache is removed from
sessionStorage before the fetch; otherwise the fetch tail runs.  `now` is
`Date.now()`; JS `now - parseInt(ts)` can be negative under clock skew and
then compares below the duration, which truncated `Nat` subtraction models
identically.  Returns the config and the resulting storage state. -/
def getConfig (st : StorageState) (now : Nat) (fetch : Option Config) :
    Config × StorageState :=
  match st.cachedConfig, st.cachedTimestamp with
  | some cfg, some ts =>
    if now - ts < CACHE_DURATION then (cfg, st)
    else getConfigFetch { cachedConfig := none, cachedTimestamp := none } now fetch
  | _, _ => getConfigFetch st now fetch

/-- A concrete entry with the `exercise` habit checked. -/
def entryHit : Entry :=
  { timestamp := "2025-01-02T09:00:00", showed_up := true, habits := ["exercise"] }

/-- A concrete entry with no habit checked. -/
def entryMiss : Entry :=
  { timestamp := "2025-01-03T09:00:00", showed_up := false, habits := [] }

/-- A concrete fallback payload as displayed while the LLM generates. -/
def fallbackPayload : InsightPayload :=
  { source := "fallback", verdict := "You showed up 3 of 5 days.",
    evidence := ["3/5 days showed up"], action := "Keep going.",
    confidence_estimate := 1 / 2, llm_processing := true }

/-- A concrete LLM payload as the poll loop receives it when generation
resolves. -/
def llmPayload : InsightPayload :=
  { source := "llm", verdict := "Energy dips after missed sleep.",
    evidence := ["Jan 2 entry"], action := "Protect your sleep window.",
    confidence_estimate := 4 / 5, llm_processing := false }

/-- A concrete card state displaying the fallback while polling is active. -/
def pollingCardState : CardState :=
  { insight := some fallbackPayload, isRefreshing := false,
    hasStartedPolling := true, pollActive := true, isPolling := true }

/-- A concrete non-empty config used to exercise the cache paths. -/
def sampleConfig : Config :=
  { emotions := ["content"], habits := ["exercise"],
    reflection_questions := ["What drains my energy?"], goals := ["health"] }

/-- A concrete cache record for a day with no insight yet. -/
def absentRecord : InsightCacheRecord := { status := .absent, content := none }

/-- A concrete free-text value of 201 characters, one over the limit. -/
def longText : String := ⟨List.replicate 201 'x'⟩

/-- The payload `EntryForm` posts for a valid submission with the slider at 7. -/
def sampleEnergyPayload : EntryPayload :=
  { emotion := "calm", energy := some 7, showed_up := true, habits := ["exercise"],
    goals := [], free_text := "hi", long_reflection := "" }

/-! ## Helper lemmas -/

theorem dropWhile_length_le {α : Type} (p : α → Bool) (l : List α) :
    (l.dropWhile p).length ≤ l.length := by
  induction l with
  | nil => simp
  | cons a l ih =>
    by_cases h : p a
    · rw [List.dropWhile_cons_of_pos h]
      exact Nat.le_succ_of_le ih
    · rw [List.dropWhile_cons_of_neg h]

theorem jsTrim_length_le (s : String) : (jsTrim s).length ≤ s.length := by
  show (((s.data.dropWhile isJsWhitespace).reverse.dropWhile
      isJsWhitespace).reverse).length ≤ s.data.length
  rw [List.length_reverse]
  calc ((s.data.dropWhile isJsWhitespace).reverse.dropWhile isJsWhitespace).length
      ≤ (s.data.dropWhile isJsWhitespace).reverse.length :=
        dropWhile_length_le _ _
    _ = (s.data.dropWhile isJsWhitespace).length := List.length_reverse _
    _ ≤ s.data.length := dropWhile_length_le _ _

theorem takeWhile_append_of_all {α : Type} {p : α → Bool} {l l' : List α}
    (h : ∀ x ∈ l, p x = true) :
    (l ++ l').takeWhile p = l ++ l'.takeWhile p := by
  induction l with
  | nil => simp
  | cons a l ih =>
    have ha : p a = true := h a (by simp)
    simp only [List.cons_append, List.takeWhile_cons, ha]
    rw [ih fun x hx => h x (by simp [hx])]
    simp

theorem takeWhile_append_stops {α : Type} {p : α → Bool} {l l' : List α}
    (h : ∃ x ∈ l, p x = false) :
    (l ++ l').takeWhile p = l.takeWhile p := by
  induction l with
  | nil => rcases h with ⟨x, hx, _⟩; cases hx
  | cons a l ih =>
    by_cases ha : p a = true
    · simp only [List.cons_append, List.takeWhile_cons, ha]
      rcases h with ⟨x, hx, hpx⟩
      rcases List.mem_cons.mp hx with hx | hx
      · rw [hx] at hpx; rw [hpx] at ha; cases ha
      · rw [ih ⟨x, hx, hpx⟩]
    · have ha' : p a = false := Bool.not_eq_true _ ▸ ha
      simp [List.takeWhile_cons, ha']

theorem takeWhile_of_all {α : Type} {p : α → Bool} {l : List α}
    (h : ∀ x ∈ l, p x = true) : l.takeWhile p = l := by
  induction l with
  | nil => rfl
  | cons a l ih =>
    have ha : p a = true := h a (by simp)
    simp only [List.takeWhile_cons, ha]
    rw [ih fun x hx => h x (by simp [hx])]
    simp

theorem exists_false_of_not_all {α : Type} {p : α → Bool} {l : List α}
    (h : ¬ l.all p = true) : ∃ x ∈ l, p x = false := by
  have h' : ¬ ∀ x ∈ l, p x = true := fun hc => h (List.all_eq_true.mpr hc)
  push_neg at h'
  rcases h' with ⟨x, hmem, hpx⟩
  exact ⟨x, hmem, Bool.not_eq_true _ ▸ hpx⟩

theorem showedUpLoop_current (l : List Entry) :
    ∀ idx current longest tempLongest, current = 0 ∨ idx ≠ 0 →
      (showedUpLoop l idx current longest tempLongest).1
        = current + l.countP (fun e => e.showed_up) := by
  induction l with
  | nil => intro idx c lg t _; simp [showedUpLoop]
  | cons e rest ih =>
    intro idx c lg t h
    by_cases hs : e.showed_up
    · rw [showedUpLoop, if_pos hs,
        ih (idx + 1) (c + 1) _ _ (Or.inr (Nat.succ_ne_zero idx)),
        List.countP_cons]
      simp [hs]
      try omega
    · have hcond : ¬(0 < c ∧ idx = 0) := by rcases h with h | h <;> omega
      rw [showedUpLoop, if_neg hs, if_neg hcond,
        ih (idx + 1) c _ _ (Or.inr (Nat.succ_ne_zero idx)), List.countP_cons]
      try simp [hs]

theorem habitExtLoop_current (h : String) (l : List Entry) :
    ∀ current longest maxStreak,
      (habitExtLoop h l current longest maxStreak).1
        = if l.all (hasHabit h) then current + l.length
          else (l.reverse.takeWhile (hasHabit h)).length := by
  induction l with
  | nil => intro c lg m; simp [habitExtLoop]
  | cons e rest ih =>
    intro c lg m
    by_cases he : hasHabit h e
    · rw [habitExtLoop, if_pos he, ih]
      by_cases hall : rest.all (hasHabit h)
      · simp only [List.all_cons, he, hall, if_pos, Bool.true_and, if_true,
          List.length_cons]
        omega
      · have hex : ∃ x ∈ rest.reverse, hasHabit h x = false := by
          rcases exists_false_of_not_all hall with ⟨x, hmem, hpx⟩
          exact ⟨x, List.mem_reverse.mpr hmem, hpx⟩
        have : (e :: rest).all (hasHabit h) = false := by
          simp [List.all_cons, hall]
        rw [if_neg hall, this]
        simp only [Bool.false_eq_true, if_false, List.reverse_cons]
        rw [takeWhile_append_stops hex]
    · have he' : hasHabit h e = false := Bool.not_eq_true _ ▸ he
      rw [habitExtLoop, if_neg he, ih]
      have hallc : (e :: rest).all (hasHabit h) = false := by
        simp [List.all_cons, he']
      rw [hallc]
      simp only [Bool.false_eq_true, if_false, List.reverse_cons]
      by_cases hall : rest.all (hasHabit h)
      · rw [if_pos hall,
          takeWhile_append_of_all
            (fun x hx => List.all_eq_true.mp hall x (List.mem_reverse.mp hx))]
        simp [List.takeWhile_cons, he']
      · rw [if_neg hall]
        have hex : ∃ x ∈ rest.reverse, hasHabit h x = false := by
          rcases exists_false_of_not_all hall with ⟨x, hmem, hpx⟩
          exact ⟨x, List.mem_reverse.mpr hmem, hpx⟩
        rw [takeWhile_append_stops hex]

theorem habitStreakSimple_eq (h : String) (l : List Entry) :
    habitStreakSimple h l = (l.takeWhile (hasHabit h)).length := by
  induction l with
  | nil => rfl
  | cons e rest ih =>
    by_cases he : hasHabit h e
    · rw [habitStreakSimple, if_pos he, ih]
      simp [List.takeWhile_cons, he]
    · have he' : hasHabit h e = false := Bool.not_eq_true _ ▸ he
      rw [habitStreakSimple, if_neg he]
      simp [List.takeWhile_cons, he']

theorem habitStreakExt_current (sorted : List Entry) (h : String) :
    (habitStreakExt sorted h).1
      = (sorted.reverse.takeWhile (hasHabit h)).length := by
  rw [habitStreakExt, habitExtLoop_current h sorted 0 0 0]
  split
  · next hall =>
    rw [takeWhile_of_all
        (fun x hx => List.all_eq_true.mp hall x (List.mem_reverse.mp hx))]
    simp
  · rfl

theorem entryFormSubmit_ok_energy (em en : String) (su : Bool)
    (hb gl : List String) (ft lr : String) (pl : EntryPayload)
    (hok : entryFormSubmit em en su hb gl ft lr = .ok pl) :
    pl.energy = jsParseInt en := by
  rw [entryFormSubmit] at hok
  split at hok
  · exact Except.noConfusion hok
  · split at hok
    · exact Except.noConfusion hok
    · cases hok; rfl

theorem pollTick_insight_of_not_llm (s : CardState) (o : PollOutcome)
    (h : ∀ r, o = .ok r → r.source ≠ "llm") :
    ((pollTick s o).1).insight = s.insight := by
  cases o with
  | err => rfl
  | ok r =>
    rw [pollTick, if_neg (h r rfl)]
    split <;> rfl

theorem runPollLoop_count_le (resp : Nat → PollOutcome) :
    ∀ fuel count s, (runPollLoop resp fuel count s).2 ≤ count + fuel := by
  intro fuel
  induction fuel with
  | zero => intro c s; simp [runPollLoop]
  | succ n ih =>
    intro c s
    rw [runPollLoop]
    split
    · simp
      try omega
    · split
      · simp
        try omega
      · calc (runPollLoop resp n (c + 1) _).2 ≤ (c + 1) + n := ih _ _
          _ = c + (n + 1) := by omega

theorem runPollLoop_insight (resp : Nat → PollOutcome)
    (h : ∀ n r, resp n = .ok r → r.source ≠ "llm") :
    ∀ fuel count s, ((runPollLoop resp fuel count s).1).insight = s.insight := by
  intro fuel
  induction fuel with
  | zero => intro c s; rfl
  | succ n ih =>
    intro c s
    have htick : ((pollTick s (resp (c + 1))).1).insight = s.insight :=
      pollTick_insight_of_not_llm _ _ (fun r hr => h (c + 1) r hr)
    rw [runPollLoop]
    split
    · exact htick
    · split
      · simpa [clearPollRefs] using htick
      · rw [ih (c + 1) _]; exact htick

/-! ## Claim theorems -/

/-- Claim C1: rate-limit invariant for the daily insight.  Two consecutive
non-forced calls to the (spec-modelled) `get_daily_insight` before the first
one resolves never both start an LLM generation; on the client side the
`hasStartedPollingRef` guard keeps a second interval from starting while one
is outstanding, and the refresh button is disabled whenever the displayed
insight has `llm_processing` set. -/
theorem C1_rate_limit :
    ∀ (rec : InsightCacheRecord) (cs : CardState) (i : InsightPayload)
      (loading isRefreshing : Bool),
      ¬((getDailyInsightStep false rec).2 = true
          ∧ (getDailyInsightStep false (getDailyInsightStep false rec).1).2 = true)
      ∧ (cs.hasStartedPolling = true → (pollEffect cs).2 = false)
      ∧ (i.llm_processing = true →
          refreshDisabled loading isRefreshing (some i) = true) := by
  intro rec cs i loading isRefreshing
  refine ⟨?_, ?_, ?_⟩
  · cases rec with
    | mk st ct => cases st <;> simp [getDailyInsightStep]
  · intro h
    cases cs with
    | mk oins irf hsp pa ip =>
      subst h
      cases oins with
      | none => rfl
      | some ins =>
        simp only [pollEffect]
        split
        · rfl
        · split
          · next hc => exact absurd hc.2.2 (by simp)
          · split <;> rfl
  · intro h
    simp [refreshDisabled, h]

/-- Witness for C1 at a concrete pending-day record, a card state whose
polling guard is set, and the fallback payload. -/
theorem C1_witness :
    pollingCardState.hasStartedPolling = true
    ∧ fallbackPayload.llm_processing = true
    ∧ (pollEffect pollingCardState).2 = false
    ∧ refreshDisabled false false (some fallbackPayload) = true :=
  ⟨rfl, rfl,
    (C1_rate_limit absentRecord pollingCardState fallbackPayload false false).2.1 rfl,
    (C1_rate_limit absentRecord pollingCardState fallbackPayload false false).2.2 rfl⟩

/-- Claim C2: a force refresh never blanks the displayed insight.  When the
response still reports `llm_processing`, `loadInsight(true)` keeps the
previous payload and only sets its `llm_processing` flag; intermediate polls
that are not LLM-ready leave the displayed insight untouched; and the poll
that sees the LLM response replaces the payload in the one `setInsight`
update of that tick. -/
theorem C2_force_refresh_keeps_payload :
    ∀ (p resp : InsightPayload) (s : CardState) (o : PollOutcome),
      (resp.llm_processing = true →
        loadInsightForce (some p) resp
          = (some { p with llm_processing := true }, true))
      ∧ ((∀ r, o = .ok r → r.source ≠ "llm") →
          ((pollTick s o).1).insight = s.insight)
      ∧ (∀ r, o = .ok r → r.source = "llm" →
          ((pollTick s o).1).insight = some r) := by
  intro p resp s o
  refine ⟨?_, ?_, ?_⟩
  · intro h
    rw [loadInsightForce, if_neg (by simp [h]), if_pos h]
  · exact pollTick_insight_of_not_llm s o
  · intro r hr hsrc
    subst hr
    rw [pollTick, if_pos hsrc]

/-- Witness for C2: force-refreshing while the READY `llmPayload` is shown
keeps its content with the processing flag set, and the LLM-ready poll
replaces the displayed fallback. -/
theorem C2_witness :
    fallbackPayload.llm_processing = true
    ∧ loadInsightForce (some llmPayload) fallbackPayload
        = (some { llmPayload with llm_processing := true }, true)
    ∧ ((pollTick pollingCardState (.ok llmPayload)).1).insight = some llmPayload :=
  ⟨rfl,
    (C2_force_refresh_keeps_payload llmPayload fallbackPayload pollingCardState
      (.ok llmPayload)).1 rfl,
    (C2_force_refresh_keeps_payload llmPayload fallbackPayload pollingCardState
      (.ok llmPayload)).2.2 llmPayload rfl rfl⟩

/-- Claim C3: the poll loop performs at most `maxPolls = 24` polls at the
fixed 5000 ms interval (a 120000 ms = 2 minute budget), and when no poll
ever returns an LLM response the displayed insight — the fallback payload —
is left unchanged when polling halts. -/
theorem C3_poll_budget :
    ∀ (resp : Nat → PollOutcome) (s : CardState),
      (runPollLoop resp maxPolls 0 s).2 ≤ maxPolls
      ∧ maxPolls * pollIntervalMs = 120000
      ∧ ((∀ n r, resp n = .ok r → r.source ≠ "llm") →
          ((runPollLoop resp maxPolls 0 s).1).insight = s.insight) := by
  intro resp s
  refine ⟨?_, by decide, ?_⟩
  · have := runPollLoop_count_le resp maxPolls 0 s
    simpa using this
  · intro h
    exact runPollLoop_insight resp h maxPolls 0 s

/-- Witness for C3 against a backend whose polls always fail: the loop stays
within budget and the fallback stays on screen. -/
theorem C3_witness :
    (runPollLoop (fun _ => PollOutcome.err) maxPolls 0 pollingCardState).2 ≤ maxPolls
    ∧ ((runPollLoop (fun _ => PollOutcome.err) maxPolls 0
        pollingCardState).1).insight = pollingCardState.insight :=
  ⟨(C3_poll_budget (fun _ => PollOutcome.err) pollingCardState).1,
    (C3_poll_budget (fun _ => PollOutcome.err) pollingCardState).2.2
      (fun _ _ hr => nomatch hr)⟩

/-- Claim C4: on every window-filtered, most-recent-first entry list, the
extended HistoryView's current showed-up streak equals the total count of
showed-up entries in the window (the reset branch can only fire at the first
element, where `current` is still 0), and its current habit streak is the
run of habit-true entries at the oldest end of the window — the scan ends at
the window boundary. -/
theorem C4_streak_window_boundary :
    ∀ (sorted : List Entry) (h : String),
      (showedUpStreak sorted).1 = sorted.countP (fun e => e.showed_up)
      ∧ (habitStreakExt sorted h).1
          = (sorted.reverse.takeWhile (hasHabit h)).length := by
  intro sorted h
  constructor
  · rw [showedUpStreak, showedUpLoop_current sorted 0 0 0 0 (Or.inl rfl)]
    exact Nat.zero_add _
  · exact habitStreakExt_current sorted h

/-- Claim C5 counterexample: the spec names the fields `status` and
`confidence`, but the client reads neither — the response fields it consumes
are named `source` and `confidence_estimate`. -/
theorem C5_counterexample :
    ("status" ∈ insightFieldsSpec ∧ "status" ∉ insightFieldsRead)
    ∧ ("confidence" ∈ insightFieldsSpec ∧ "confidence" ∉ insightFieldsRead) := by
  decide

/-- Claim C5 (amended): the daily-insight response the client consumes
carries the same number of fields as the spec's interface, and every
spec-named field is consumed under its own name except `status` and
`confidence`, which appear as `source` and `confidence_estimate`. -/
theorem C5_fields_amended :
    insightFieldsRead.length = insightFieldsSpec.length
    ∧ (∀ f ∈ insightFieldsSpec,
        f = "status" ∨ f = "confidence" ∨ f ∈ insightFieldsRead)
    ∧ "source" ∈ insightFieldsRead
    ∧ "confidence_estimate" ∈ insightFieldsRead
    ∧ "status" ∉ insightFieldsRead
    ∧ "confidence" ∉ insightFieldsRead := by
  decide

/-- Witness for C5 (amended) at the field `verdict`, which both the spec and
the client name identically. -/
theorem C5_witness :
    "verdict" ∈ insightFieldsSpec
    ∧ ("verdict" = "status" ∨ "verdict" = "confidence"
        ∨ "verdict" ∈ insightFieldsRead) :=
  ⟨by decide, C5_fields_amended.2.1 "verdict" (by decide)⟩

/-- Claim C6 counterexample: at confidence 4/5 the QueryInterface line shows
80 before the percent sign while the InsightCard line shows 4/5 — the two
renders disagree on a value inside [0,1]. -/
theorem C6_counterexample :
    (0 : ℚ) ≤ 4 / 5 ∧ (4 : ℚ) / 5 ≤ 1
    ∧ queryConfidenceShown (4 / 5) ≠ insightConfidenceShown (4 / 5) := by
  refine ⟨by norm_num, by norm_num, ?_⟩
  rw [queryConfidenceShown, insightConfidenceShown, jsToFixed0]
  norm_num

/-- Claim C6 (amended): QueryInterface renders `confidence × 100` rounded to
an integer while InsightCard renders the raw value, so for confidence values
in [0,1] the two rendered numbers agree exactly when the confidence is 0. -/
theorem C6_confidence_amended :
    ∀ c : ℚ, 0 ≤ c → c ≤ 1 →
      (queryConfidenceShown c = insightConfidenceShown c ↔ c = 0) := by
  intro c h0 h1
  rw [queryConfidenceShown, insightConfidenceShown, jsToFixed0]
  constructor
  · intro hfl
    have h0' : (0 : ℤ) ≤ ⌊c * 100 + 1 / 2⌋ := by
      have : (0 : ℚ) ≤ ((⌊c * 100 + 1 / 2⌋ : ℤ) : ℚ) := by rw [hfl]; exact h0
      exact_mod_cast this
    have h1' : ⌊c * 100 + 1 / 2⌋ ≤ 1 := by
      have : ((⌊c * 100 + 1 / 2⌋ : ℤ) : ℚ) ≤ 1 := by rw [hfl]; exact h1
      exact_mod_cast this
    have hcases : ⌊c * 100 + 1 / 2⌋ = 0 ∨ ⌊c * 100 + 1 / 2⌋ = 1 := by omega
    rcases hcases with hq | hq
    · rw [hq] at hfl
      exact_mod_cast hfl.symm
    · exfalso
      rw [hq] at hfl
      have hc1 : c = 1 := by exact_mod_cast hfl.symm
      rw [hc1] at hq
      norm_num at hq
  · intro h
    subst h
    norm_num

/-- Witness for C6 (amended) at confidence 0, where both renders show 0. -/
theorem C6_witness :
    (0 : ℚ) ≤ 0 ∧ (0 : ℚ) ≤ 1
    ∧ (queryConfidenceShown 0 = insightConfidenceShown 0 ↔ (0 : ℚ) = 0) :=
  ⟨by norm_num, by norm_num, C6_confidence_amended 0 (by norm_num) (by norm_num)⟩

/-- Claim C7: in both entry forms a free text longer than 200 characters
makes the submit handler set an error and return before the `POST /entry/`
request, and every payload either form does post has a `free_text` of at
most 200 characters. -/
theorem C7_short_text_limit :
    ∀ (em en : String) (su : Bool) (hb gl : List String) (ft lr : String),
      (200 < ft.length →
        (∃ msg, entryFormSubmit em en su hb gl ft lr = .error msg)
        ∧ (∃ msg, quickEntrySubmit em su hb ft lr = .error msg))
      ∧ (∀ pl, entryFormSubmit em en su hb gl ft lr = .ok pl →
          pl.free_text.length ≤ 200)
      ∧ (∀ pl, quickEntrySubmit em su hb ft lr = .ok pl →
          pl.free_text.length ≤ 200) := by
  intro em en su hb gl ft lr
  refine ⟨?_, ?_, ?_⟩
  · intro hlen
    constructor
    · rw [entryFormSubmit]
      by_cases hem : em = ""
      · rw [if_pos hem]; exact ⟨_, rfl⟩
      · rw [if_neg hem, if_pos hlen]; exact ⟨_, rfl⟩
    · rw [quickEntrySubmit]
      by_cases hem : em = ""
      · rw [if_pos hem]; exact ⟨_, rfl⟩
      · rw [if_neg hem]
        by_cases htr : jsTrim ft = ""
        · rw [if_pos htr]; exact ⟨_, rfl⟩
        · rw [if_neg htr, if_pos hlen]; exact ⟨_, rfl⟩
  · intro pl hok
    rw [entryFormSubmit] at hok
    split at hok
    · exact Except.noConfusion hok
    · split at hok
      · exact Except.noConfusion hok
      · next hlen =>
        cases hok
        exact Nat.le_of_not_lt hlen
  · intro pl hok
    rw [quickEntrySubmit] at hok
    split at hok
    · exact Except.noConfusion hok
    · split at hok
      · exact Except.noConfusion hok
      · split at hok
        · exact Except.noConfusion hok
        · next hlen =>
          cases hok
          exact Nat.le_trans (jsTrim_length_le ft) (Nat.le_of_not_lt hlen)

set_option maxRecDepth 4000 in
/-- Witness for C7 at a concrete 201-character free text: both forms refuse
to post it. -/
theorem C7_witness :
    200 < longText.length
    ∧ (∃ msg, entryFormSubmit "calm" "5" true [] [] longText "" = .error msg)
    ∧ (∃ msg, quickEntrySubmit "calm" true [] longText "" = .error msg) :=
  ⟨by decide,
    ((C7_short_text_limit "calm" "5" true [] [] longText "").1 (by decide)).1,
    ((C7_short_text_limit "calm" "5" true [] [] longText "").1 (by decide)).2⟩

/-- Claim C8: every entry payload either form posts has an integer energy
between 1 and 10 — `EntryForm` parses the range-input value (one of the
strings "1" through "10") with `parseInt`, and `QuickEntryModal` always
posts the constant 5. -/
theorem C8_energy_range :
    ∀ (em en : String) (su : Bool) (hb gl : List String) (ft lr : String)
      (pl : EntryPayload),
      (en ∈ energySliderValues → entryFormSubmit em en su hb gl ft lr = .ok pl →
        ∃ n, pl.energy = some n ∧ 1 ≤ n ∧ n ≤ 10)
      ∧ (quickEntrySubmit em su hb ft lr = .ok pl →
          pl.energy = some 5 ∧ 1 ≤ 5 ∧ (5 : Nat) ≤ 10) := by
  intro em en su hb gl ft lr pl
  constructor
  · intro hmem hok
    have he := entryFormSubmit_ok_energy em en su hb gl ft lr pl hok
    simp only [energySliderValues, List.mem_cons, List.not_mem_nil,
      or_false] at hmem
    rcases hmem with rfl | rfl | rfl | rfl | rfl | rfl | rfl | rfl | rfl | rfl
    · exact ⟨1, by rw [he]; decide, by decide, by decide⟩
    · exact ⟨2, by rw [he]; decide, by decide, by decide⟩
    · exact ⟨3, by rw [he]; decide, by decide, by decide⟩
    · exact ⟨4, by rw [he]; decide, by decide, by decide⟩
    · exact ⟨5, by rw [he]; decide, by decide, by decide⟩
    · exact ⟨6, by rw [he]; decide, by decide, by decide⟩
    · exact ⟨7, by rw [he]; decide, by decide, by decide⟩
    · exact ⟨8, by rw [he]; decide, by decide, by decide⟩
    · exact ⟨9, by rw [he]; decide, by decide, by decide⟩
    · exact ⟨10, by rw [he]; decide, by decide, by decide⟩
  · intro hok
    rw [quickEntrySubmit] at hok
    split at hok
    · exact Except.noConfusion hok
    · split at hok
      · exact Except.noConfusion hok
      · split at hok
        · exact Except.noConfusion hok
        · cases hok
          exact ⟨rfl, by decide, by decide⟩

/-- Witness for C8 at the slider value "7": the posted payload carries
energy 7, inside [1,10]. -/
theorem C8_witness :
    "7" ∈ energySliderValues
    ∧ entryFormSubmit "calm" "7" true ["exercise"] [] "hi" ""
        = .ok sampleEnergyPayload
    ∧ (∃ n, sampleEnergyPayload.energy = some n ∧ 1 ≤ n ∧ n ≤ 10) :=
  ⟨by decide, rfl,
    (C8_energy_range "calm" "7" true ["exercise"] [] "hi" ""
      sampleEnergyPayload).1 (by decide) rfl⟩

/-- Claim C9 counterexample: on the two-entry list whose most recent entry
lacks the habit while the older one has it, the simple HistoryView streak is
0 but the extended HistoryView's current streak is 1 — the two
implementations disagree. -/
theorem C9_counterexample :
    habitStreakSimple "exercise" [entryMiss, entryHit] = 0
    ∧ (habitStreakExt [entryMiss, entryHit] "exercise").1 = 1
    ∧ habitStreakSimple "exercise" [entryMiss, entryHit]
        ≠ (habitStreakExt [entryMiss, entryHit] "exercise").1 := by
  decide

/-- Claim C9 (amended): the simple HistoryView habit streak is the run of
habit-true entries at the most-recent end of the sorted window, while the
extended HistoryView's current habit streak is the run of habit-true entries
at the oldest end; they agree exactly when those two runs have the same
length (for instance on all-true lists), not in general. -/
theorem C9_streaks_amended :
    ∀ (sorted : List Entry) (h : String),
      habitStreakSimple h sorted = (sorted.takeWhile (hasHabit h)).length
      ∧ (habitStreakExt sorted h).1
          = (sorted.reverse.takeWhile (hasHabit h)).length := by
  intro sorted h
  exact ⟨habitStreakSimple_eq h sorted, habitStreakExt_current sorted h⟩

/-- Claim C10 counterexample: with a cached config exactly five minutes old
and a failing fetch, `getConfig` returns the empty default rather than the
previously cached config — the expired cache is removed before the fetch. -/
theorem C10_counterexample :
    (getConfig { cachedConfig := some sampleConfig, cachedTimestamp := some 0 }
        CACHE_DURATION none).1 = emptyConfig
    ∧ emptyConfig ≠ sampleConfig := by
  decide

/-- Claim C10 (amended): `getConfig` is total over fetch failures — a cache
younger than five minutes is returned directly; an expired cache (config and
timestamp both stored) is removed before fetching, so a failing fetch then
yields the empty default rather than the old config; a successful fetch
returns and stores the fetched config; a failing fetch returns a still-stored
config only when the timestamp slot is empty, and the empty default when no
config is stored. -/
theorem C10_getConfig_amended :
    ∀ (st : StorageState) (now : Nat) (fetch : Option Config) (cfg : Config)
      (ts : Nat),
      (st = { cachedConfig := some cfg, cachedTimestamp := some ts } →
        now - ts < CACHE_DURATION → getConfig st now fetch = (cfg, st))
      ∧ (st = { cachedConfig := some cfg, cachedTimestamp := some ts } →
          ¬now - ts < CACHE_DURATION → fetch = none →
          (getConfig st now fetch).1 = emptyConfig)
      ∧ (st.cachedConfig = none → fetch = some cfg →
          getConfig st now fetch
            = (cfg, { cachedConfig := some cfg, cachedTimestamp := some now }))
      ∧ (st.cachedConfig = some cfg → st.cachedTimestamp = none → fetch = none →
          (getConfig st now fetch).1 = cfg)
      ∧ (st.cachedConfig = none → fetch = none →
          (getConfig st now fetch).1 = emptyConfig) := by
  intro st now fetch cfg ts
  cases st with
  | mk cc ct =>
    refine ⟨?_, ?_, ?_, ?_, ?_⟩
    · intro hst hfresh
      injection hst with h1 h2
      subst h1; subst h2
      simp only [getConfig]
      rw [if_pos hfresh]
    · intro hst hexp hf
      injection hst with h1 h2
      subst h1; subst h2; subst hf
      simp only [getConfig]
      rw [if_neg hexp]
      rfl
    · intro hcc hf
      have h1 : cc = none := hcc
      subst h1; subst hf
      cases ct <;> rfl
    · intro hcc hct hf
      have h1 : cc = some cfg := hcc
      have h2 : ct = none := hct
      subst h1; subst h2; subst hf
      rfl
    · intro hcc hf
      have h1 : cc = none := hcc
      subst h1; subst hf
      cases ct <;> rfl

/-- Witness for C10 (amended) at a cache stored at time 0, read at the
five-minute mark with a failing fetch: the empty default comes back. -/
theorem C10_witness :
    ¬CACHE_DURATION - 0 < CACHE_DURATION
    ∧ (getConfig { cachedConfig := some sampleConfig, cachedTimestamp := some 0 }
        CACHE_DURATION none).1 = emptyConfig :=
  ⟨by decide,
    (C10_getConfig_amended
      { cachedConfig := some sampleConfig, cachedTimestamp := some 0 }
      CACHE_DURATION none sampleConfig 0).2.1 rfl (by decide) rfl⟩

end AIJournal
